import Mathlib

/-!
Verification of the context-isolation and offloading subsystem of
`deep_agents_from_scratch`: the virtual file store with its right-biased
merge semantics (`state.py`), the virtual file tools (`file_tools.py`),
the todo tools (`todo_tools.py`), the sub-agent dispatch tool
(`task_tool.py`) and the research/summarization pipeline
(`research_tools.py`).

Python dictionaries are embedded as association lists with unique keys
(`Dict`), language-model and search calls are embedded as explicit
oracle parameters, and the LangGraph reducer application declared in
`DeepAgentState` (files merged by `file_reducer`, messages appended,
todos replaced) is embedded as `applyUpdate`.
-/

/-- A Python `dict[str, str]` embedded as an association list.
Keys are unique in every dictionary produced by the code; lemmas that
need this take a `NodupKeys` hypothesis. -/
abbrev Dict := List (String × String)

/-- First-occurrence lookup, the embedding of `d[k]` / `k in d`. -/
def Dict.lookup : Dict → String → Option String
  | [], _ => none
  | (k', v) :: rest, k => if k' = k then some v else Dict.lookup rest k

/-- The embedding of the Python dictionary assignment `d[k] = v`:
replace the value at an existing key in place, otherwise append. -/
def Dict.insert : Dict → String → String → Dict
  | [], k, v => [(k, v)]
  | (k', v') :: rest, k, v =>
      if k' = k then (k', v) :: rest else (k', v') :: Dict.insert rest k v

/-- The embedding of the Python dict union expression
`{**left, **right}` used by `file_reducer`. -/
def Dict.union (l r : Dict) : Dict :=
  r.foldl (fun acc kv => Dict.insert acc kv.1 kv.2) l

/-- Key uniqueness, the invariant every Python dict enjoys. -/
def Dict.NodupKeys (d : Dict) : Prop := (d.map Prod.fst).Nodup

instance (d : Dict) : Decidable d.NodupKeys := List.nodupDecidable _

/-- Source: `state.py`, `file_reducer`. Merge two file dictionaries,
with the right side taking precedence. -/
def file_reducer : Option Dict → Option Dict → Option Dict
  | none, right => right
  | left, none => left
  | some left, some right => some (Dict.union left right)

/-- A task item of `state.py`. The `status` field is a plain string at
runtime (the `Literal` annotation is static typing only), which is what
lets `read_todos` meet an unknown status value. -/
structure Todo where
  content : String
  status : String
deriving DecidableEq

/-- A LangChain message, restricted to the constructors this code
builds or inspects. -/
inductive Message where
  | user (content : String)
  | assistant (content : String)
  | tool (content : String) (tool_call_id : String)
deriving DecidableEq

/-- The text content of a message. -/
def Message.content : Message → String
  | .user c => c
  | .assistant c => c
  | .tool c _ => c

/-- The `DeepAgentState` of `state.py`: conversation, virtual file
system and todo list. -/
structure AgentState where
  messages : List Message
  files : Dict
  todos : List Todo
deriving DecidableEq

/-- The `update` dictionary of a LangGraph `Command` as the tools of
this repository build it: an optional full `files` value, an optional
full `todos` value, and messages to append. -/
structure CommandUpdate where
  files : Option Dict
  todos : Option (List Todo)
  messages : List Message
deriving DecidableEq

/-- Modelled from the spec: the LangGraph runtime applying a `Command`
update to the parent state using the reducers declared in
`DeepAgentState` — `files` is merged through `file_reducer`, `messages`
is appended, `todos` (no reducer) is replaced when present. -/
def applyUpdate (s : AgentState) (c : CommandUpdate) : AgentState :=
  { messages := s.messages ++ c.messages
    files := (file_reducer (some s.files) c.files).getD s.files
    todos := c.todos.getD s.todos }

/-- The empty top-level session state. -/
def emptyState : AgentState := { messages := [], files := [], todos := [] }

/-- A single-quote character as a string (used by Python f-strings and
reprs embedded below). -/
def apos : String := String.singleton (Char.ofNat 39)

/-- A backtick character as a string. -/
def btick : String := String.singleton (Char.ofNat 96)

/-- The embedding of Python `sep.join(parts)`. -/
def joinSep (sep : String) : List String → String
  | [] => ""
  | [x] => x
  | x :: xs => x ++ sep ++ joinSep sep xs

/-- Concatenation of a list of strings (used to describe accumulator
loops). -/
def concatList : List String → String
  | [] => ""
  | x :: xs => x ++ concatList xs

/-- Characters Python `str.splitlines` treats as line boundaries
(the ASCII ones plus NEL and the Unicode line/paragraph separators). -/
def isLineBreak (c : Char) : Bool :=
  c = Char.ofNat 10 || c = Char.ofNat 13 || c = Char.ofNat 11 ||
  c = Char.ofNat 12 || c = Char.ofNat 28 || c = Char.ofNat 29 ||
  c = Char.ofNat 30 || c = Char.ofNat 133 || c = Char.ofNat 8232 ||
  c = Char.ofNat 8233

/-- Collapse each CR LF pair into a single LF so that the boundary scan
below can treat every remaining break character individually, exactly
as Python `str.splitlines` treats CR LF as one boundary. -/
def normalizeNewlines : List Char → List Char
  | [] => []
  | '\r' :: '\n' :: rest => '\n' :: normalizeNewlines rest
  | c :: rest => c :: normalizeNewlines rest

/-- Split on individual break characters; a trailing break does not
produce a final empty line, matching Python `str.splitlines`. -/
def splitBreaks : List Char → List Char → List String
  | [], acc => if acc.isEmpty then [] else [String.mk acc.reverse]
  | c :: rest, acc =>
      if isLineBreak c then String.mk acc.reverse :: splitBreaks rest []
      else splitBreaks rest (c :: acc)

/-- The embedding of Python `content.splitlines()`. -/
def splitlines (s : String) : List String :=
  splitBreaks (normalizeNewlines s.data) []

/-- Characters stripped by Python `str.strip()` on the strings this
code produces. -/
def pySpace (c : Char) : Bool :=
  c = ' ' || c = Char.ofNat 9 || c = Char.ofNat 10 || c = Char.ofNat 13 ||
  c = Char.ofNat 11 || c = Char.ofNat 12

/-- The embedding of Python `s.strip()`. -/
def pyStrip (s : String) : String :=
  String.mk (((s.data.dropWhile pySpace).reverse.dropWhile pySpace).reverse)

/-- The embedding of the Python slice `s[:n]`: the first `n` code
points of `s`. -/
def takeChars (s : String) (n : Nat) : String := String.mk (s.data.take n)

/-- The embedding of the Python format spec `f"{n:6d}"` for a natural
number: right-aligned in a field of (at least) six characters. -/
def fmt6 (n : Nat) : String :=
  let s := toString n
  String.mk (List.replicate (6 - s.length) ' ') ++ s

/-- Source: `file_tools.py`, `read_file`. Read file content from the
virtual filesystem with optional offset and limit, returning error
text (never raising) when the path is absent, the file is empty, or
the offset is at or beyond the last line. -/
def read_file (s : AgentState) (file_path : String) (offset : Nat := 0)
    (limit : Nat := 2000) : String :=
  match Dict.lookup s.files file_path with
  | none => "Error: File " ++ apos ++ file_path ++ apos ++ " not found"
  | some content =>
    if content = "" then "System reminder: File exists but has empty contents"
    else
      let lines := splitlines content
      let start_idx := offset
      let end_idx := min (start_idx + limit) lines.length
      if lines.length ≤ start_idx then
        "Error: Line offset " ++ toString offset ++ " exceeds file length ("
          ++ toString lines.length ++ " lines)"
      else
        joinSep "\n"
          (((lines.enum.drop start_idx).take (end_idx - start_idx)).map
            (fun p => fmt6 (p.1 + 1) ++ "\t" ++ takeChars p.2 2000))

/-- Source: `file_tools.py`, `write_file`. Unconditional full replace
of the file at `file_path`, returned as a `Command` update together
with a confirmation message. -/
def write_file (s : AgentState) (file_path content : String)
    (tool_call_id : String) : CommandUpdate :=
  { files := some (Dict.insert s.files file_path content)
    todos := none
    messages := [Message.tool ("Updated file " ++ file_path) tool_call_id] }

/-- Source: `todo_tools.py`, the `status_emoji` dict lookup with
fallback default inside `read_todos`. -/
def statusEmojiLookup (status : String) : String :=
  if status = "pending" then "⏳"
  else if status = "in_progress" then "🔄"
  else if status = "completed" then "✅"
  else "❓"

/-- Source: `todo_tools.py`, the body of the formatting loop of
`read_todos` for the 1-based item `i`. -/
def formatTodoLine (i : Nat) (t : Todo) : String :=
  toString i ++ ". " ++ statusEmojiLookup t.status ++ " " ++ t.content
    ++ " (" ++ t.status ++ ")\n"

/-- Source: `todo_tools.py`, `read_todos`. Format the current todo
list (a sentinel when empty) and return it as a tool message. -/
def read_todos (s : AgentState) (tool_call_id : String) : CommandUpdate :=
  let message_content :=
    if s.todos.isEmpty then "No todos currently in the list."
    else
      pyStrip (s.todos.enum.foldl
        (fun acc p => acc ++ formatTodoLine (p.1 + 1) p.2)
        "Current TODO List:\n")
  { files := none
    todos := none
    messages := [Message.tool message_content tool_call_id] }

/-- A sub-agent as seen by the `task` tool: `create_agent(...)` returns
a runnable whose `invoke` maps an initial state to a final state. The
reasoning engine inside it is out of scope, so the worker is an
arbitrary function. -/
def Worker := AgentState → AgentState

/-- The registry `agents` built by `_create_task_tool`, keyed by
sub-agent name. -/
def lookupWorker : List (String × Worker) → String → Option Worker
  | [], _ => none
  | (n, w) :: rest, name => if n = name then some w else lookupWorker rest name

/-- The Python repr of one registry key as interpolated by
`f'`...`'` inside the error f-string of `task` (a backticked name
inside single quotes). -/
def quoteKey (k : String) : String := apos ++ btick ++ k ++ btick ++ apos

/-- The Python repr of the key list interpolated into the error
message of `task`. -/
def pyListRepr (names : List String) : String :=
  "[" ++ joinSep ", " (names.map quoteKey) ++ "]"

/-- Source: `task_tool.py`, the early-return error string of `task`
for an unregistered sub-agent name. -/
def taskErrorString (subagent_type : String) (names : List String) : String :=
  "Error: invoked agent of type " ++ subagent_type
    ++ ", the only allowed types are " ++ pyListRepr names

/-- The content of `result["messages"][-1]` (the Python expression
raises on an empty list; workers always end with at least one message,
and the total embedding returns the empty string there). -/
def lastContent (msgs : List Message) : String :=
  (msgs.getLast?.map Message.content).getD ""

/-- A tool invocation result: either a plain returned string or a
`Command` carrying a state update. -/
inductive ToolResult where
  | error (message : String)
  | command (update : CommandUpdate)

/-- Source: `task_tool.py`, the `task` tool closed over the registry
`agents`. Validates the requested name, runs the worker on an isolated
context holding only the task description plus copies of the file and
todo state, and wraps the worker result as a `Command`. -/
def task (agents : List (String × Worker)) (description subagent_type : String)
    (state : AgentState) (tool_call_id : String) : ToolResult :=
  match lookupWorker agents subagent_type with
  | none => .error (taskErrorString subagent_type (agents.map Prod.fst))
  | some sub_agent =>
      let new_state : AgentState :=
        { messages := [Message.user description]
          files := state.files
          todos := state.todos }
      let result := sub_agent new_state
      .command
        { files := some result.files
          todos := none
          messages := [Message.tool (lastContent result.messages) tool_call_id] }

/-- Source: `research_tools.py`, the `Summary` structured-output
schema. -/
structure Summary where
  filename : String
  summary : String
deriving DecidableEq

/-- Modelled from the spec: `prompts.py` is not under `src/`; the
`SUMMARIZE_WEB_SEARCH` template is a prompt populated with the document
body and a current-timestamp field. The claims below never depend on
its wording. -/
def summarizePrompt (webpage_content date : String) : String :=
  "Summarize this webpage content: " ++ webpage_content ++ " Date: " ++ date

/-- Source: `research_tools.py`, the `batch_inputs` list built inside
`summarize_webpage_contents`: one single-message request per
document. -/
def mkBatchInputs (now : String) (webpage_contents : List String) :
    List (List Message) :=
  webpage_contents.map (fun content => [Message.user (summarizePrompt content now)])

/-- The external structured-output batch call
(`structured_model.batch`): an oracle that either returns one summary
per input or raises, which the embedding reports as `Except.error`. -/
def BatchModel := List (List Message) → Except String (List Summary)

/-- Source: `research_tools.py`, the element built by the fallback
branch of `summarize_webpage_contents` for index `i`. -/
def fallbackSummary (i : Nat) (content : String) : Summary :=
  { filename := "search_result_" ++ toString i ++ ".md"
    summary := if content.length > 1000 then takeChars content 1000 ++ "..." else content }

/-- Source: `research_tools.py`, `summarize_webpage_contents`.
Summarize all documents through one batched model call; on any batch
error fall back to local truncation with deterministic filenames; an
empty input returns the empty list before any model call. -/
def summarize_webpage_contents (batch : BatchModel) (now : String)
    (webpage_contents : List String) : List Summary :=
  if webpage_contents.isEmpty then []
  else
    match batch (mkBatchInputs now webpage_contents) with
    | .ok summaries => summaries
    | .error _ => webpage_contents.enum.map (fun p => fallbackSummary p.1 p.2)

/-- One entry of the ranked list returned by the search provider;
`raw_content` may be missing (`None` or absent key). -/
structure SearchResult where
  url : String
  title : String
  raw_content : Option String
deriving DecidableEq

/-- The search provider response dict; the `results` key may be
missing. -/
structure SearchResponse where
  results : Option (List SearchResult)
deriving DecidableEq

/-- Source: `research_tools.py`, the dict appended to
`processed_results` for one zipped (result, summary) pair. -/
structure ProcessedResult where
  url : String
  title : String
  summary : String
  filename : String
  raw_content : String
deriving DecidableEq

/-- Source: `research_tools.py`, `process_search_results`. Missing or
empty `results` give the empty list; otherwise the raw contents are
summarized positionally and zipped back with the originals. -/
def process_search_results (batch : BatchModel) (now : String)
    (results : SearchResponse) : List ProcessedResult :=
  let search_results := results.results.getD []
  if search_results.isEmpty then []
  else
    let raw_contents := search_results.map (fun r => r.raw_content.getD "")
    let summary_objects := summarize_webpage_contents batch now raw_contents
    (search_results.zip summary_objects).map (fun p =>
      { url := p.1.url
        title := p.1.title
        summary := p.2.summary
        filename := p.2.filename
        raw_content := p.1.raw_content.getD "" })

/-- Source: `research_tools.py`, the `file_content` f-string written
for one processed result inside `tavily_search`. -/
def fileDocument (query now : String) (r : ProcessedResult) : String :=
  "# Search Result: " ++ r.title ++ "\n\n**URL:** " ++ r.url
    ++ "\n**Query:** " ++ query ++ "\n**Date:** " ++ now
    ++ "\n\n## Summary\n" ++ r.summary ++ "\n\n## Raw Content\n"
    ++ (if r.raw_content = "" then "No raw content available" else r.raw_content)
    ++ "\n"

/-- Source: `research_tools.py`, the save loop of `tavily_search`
accumulating the files dict, the saved filename list and the summary
lines, in order. -/
def saveLoop (query now : String) : List ProcessedResult → Dict →
    List String → List String → Dict × List String × List String
  | [], files, saved, sums => (files, saved, sums)
  | r :: rest, files, saved, sums =>
      saveLoop query now rest
        (Dict.insert files r.filename (fileDocument query now r))
        (saved ++ [r.filename])
        (sums ++ ["- " ++ r.filename ++ ": " ++ r.summary ++ "..."])

/-- Source: `research_tools.py`, the `summary_text` f-string of
`tavily_search`. -/
def summaryText (query : String) (n : Nat)
    (summaries saved_files : List String) : String :=
  "🔍 Found " ++ toString n ++ " result(s) for " ++ apos ++ query ++ apos
    ++ ":\n\n" ++ joinSep "\n" summaries ++ "\n\nFiles: "
    ++ joinSep ", " saved_files
    ++ "\n💡 Use read_file() to access full details when needed."

/-- Source: `research_tools.py`, `tavily_search`, with the external
search call already performed (its response is the `searchResp`
argument) and the summarization model passed as an oracle. Offloads
every full document into the file store and returns only a compact
index as the tool message. -/
def tavily_search (searchResp : SearchResponse) (batch : BatchModel)
    (now query : String) (s : AgentState) (tool_call_id : String) :
    CommandUpdate :=
  let processed_results := process_search_results batch now searchResp
  let out := saveLoop query now processed_results s.files [] []
  let summary_text := summaryText query processed_results.length out.2.2 out.2.1
  { files := some out.1
    todos := none
    messages := [Message.tool summary_text tool_call_id] }

/-- The line bodies the spec round-trip law expects back from
`write_file` followed by `read_file`: the lines of the written content,
each truncated to 2000 characters. -/
def truncatedLines (content : String) : List String :=
  (splitlines content).map (fun l => takeChars l 2000)

/-- The output format of `read_file` as the spec describes it: each
line body prefixed with a six-digit right-aligned 1-based line number
and a tab, joined by newlines. -/
def renderNumbered (bodies : List String) : String :=
  joinSep "\n" (bodies.enum.map (fun p => fmt6 (p.1 + 1) ++ "\t" ++ p.2))

/-- `n` occurs contiguously inside `s`. -/
def SubstringOf (n s : String) : Prop := ∃ p q : String, p ++ n ++ q = s

/-- A concrete worker used to witness the dispatcher theorems: it
answers with one assistant message and returns a fresh file dict. -/
def demoWorker : Worker := fun st =>
  { messages := st.messages ++ [Message.assistant "done"]
    files := [("w.md", "data")]
    todos := [] }

/-- A one-entry registry for the dispatcher witnesses. -/
def demoRegistry : List (String × Worker) := [("research", demoWorker)]

/-- A parent state with history, files (one colliding with the worker
write) and todos, for the dispatcher witnesses. -/
def demoParent : AgentState :=
  { messages := [Message.user "hello"]
    files := [("old.md", "o"), ("w.md", "parent")]
    todos := [{ content := "t", status := "pending" }] }

/-- The worker result in the dispatcher witness scenario. -/
def demoR : AgentState :=
  demoWorker { messages := [Message.user "find X"]
               files := demoParent.files
               todos := demoParent.todos }

/-- The command the `task` tool returns in the dispatcher witness
scenario. -/
def demoCmd : CommandUpdate :=
  { files := some demoR.files
    todos := none
    messages := [Message.tool (lastContent demoR.messages) "tc1"] }

/-- A batch oracle for the summarization witnesses: succeeds with one
fixed record per input. -/
def demoBatch : BatchModel :=
  fun inputs => .ok (inputs.map (fun _ => { filename := "f.md", summary := "s" }))

/-- A state whose only file is empty, for the `read_file` edge
cases. -/
def emptyFileState : AgentState :=
  { messages := [], files := [("e.md", "")], todos := [] }

/-- A state whose only file has a single line, for the out-of-range
witness. -/
def oneLineState : AgentState :=
  { messages := [], files := [("a.md", "x")], todos := [] }

/-- A single todo item with a status outside the enum, for the
`read_todos` witness. -/
def weirdTodo : Todo := { content := "x", status := "weird" }

/-- A state holding only `weirdTodo`, for the `read_todos` witness. -/
def weirdState : AgentState :=
  { messages := [], files := [], todos := [weirdTodo] }

theorem strAppend_assoc (a b c : String) : a ++ b ++ c = a ++ (b ++ c) := by
  apply String.ext
  simp [String.data_append, List.append_assoc]

theorem strAppend_empty (a : String) : a ++ "" = a := by
  apply String.ext
  simp [String.data_append]

theorem strEmpty_append (a : String) : "" ++ a = a := by
  apply String.ext
  simp [String.data_append]

theorem Dict.lookup_insert (d : Dict) (k v q : String) :
    Dict.lookup (Dict.insert d k v) q = if k = q then some v else Dict.lookup d q := by
  induction d with
  | nil => simp [Dict.insert, Dict.lookup]
  | cons hd tl ih =>
    obtain ⟨k', v'⟩ := hd
    by_cases h1 : k' = k
    · subst h1
      by_cases h2 : k' = q <;> simp [Dict.insert, Dict.lookup, h2]
    · by_cases h2 : k' = q
      · subst h2
        have h3 : ¬ k = k' := fun h => h1 h.symm
        simp [Dict.insert, Dict.lookup, h1, h3]
      · simp [Dict.insert, Dict.lookup, h1, h2, ih]

theorem Dict.lookup_eq_none (d : Dict) (q : String)
    (h : q ∉ d.map Prod.fst) : Dict.lookup d q = none := by
  induction d with
  | nil => simp [Dict.lookup]
  | cons hd tl ih =>
    obtain ⟨k', v'⟩ := hd
    simp only [List.map_cons, List.mem_cons] at h
    push_neg at h
    have hk : k' ≠ q := fun he => h.1 he.symm
    simp [Dict.lookup, hk, ih h.2]

theorem Dict.keys_insert (d : Dict) (k v : String) :
    (Dict.insert d k v).map Prod.fst =
      if k ∈ d.map Prod.fst then d.map Prod.fst else d.map Prod.fst ++ [k] := by
  induction d with
  | nil => simp [Dict.insert]
  | cons hd tl ih =>
    obtain ⟨k', v'⟩ := hd
    by_cases h1 : k' = k
    · subst h1
      simp [Dict.insert]
    · have h2 : ¬ k = k' := fun he => h1 he.symm
      by_cases h3 : k ∈ tl.map Prod.fst <;>
        simp [Dict.insert, h1, h2, h3, ih]

theorem Dict.NodupKeys_insert (d : Dict) (k v : String)
    (h : d.NodupKeys) : (Dict.insert d k v).NodupKeys := by
  unfold Dict.NodupKeys at *
  rw [Dict.keys_insert]
  by_cases h3 : k ∈ d.map Prod.fst
  · simpa [h3] using h
  · simp only [h3, if_false]
    rw [List.nodup_append]
    refine ⟨h, List.nodup_singleton k, ?_⟩
    intro a ha hb
    simp only [List.mem_singleton] at hb
    exact h3 (hb ▸ ha)

theorem Dict.lookup_union (l r : Dict) (hr : r.NodupKeys) (q : String) :
    Dict.lookup (Dict.union l r) q =
      match Dict.lookup r q with
      | some v => some v
      | none => Dict.lookup l q := by
  induction r generalizing l with
  | nil => simp [Dict.union, Dict.lookup]
  | cons hd rest ih =>
    obtain ⟨k, v⟩ := hd
    unfold Dict.NodupKeys at hr
    simp only [List.map_cons, List.nodup_cons] at hr
    have hstep : Dict.union l ((k, v) :: rest) = Dict.union (Dict.insert l k v) rest := by
      simp [Dict.union, List.foldl_cons]
    rw [hstep, ih (Dict.insert l k v) hr.2]
    by_cases hkq : k = q
    · subst hkq
      have hrest : Dict.lookup rest k = none := Dict.lookup_eq_none rest k hr.1
      simp [Dict.lookup, hrest, Dict.lookup_insert]
    · simp [Dict.lookup, hkq, Dict.lookup_insert]

theorem normalizeNewlines_ne_nil (l : List Char) (h : l ≠ []) :
    normalizeNewlines l ≠ [] := by
  match l with
  | [] => exact absurd rfl h
  | c :: rest =>
    rw [normalizeNewlines.eq_def]
    split <;> simp_all

theorem splitBreaks_ne_nil (l acc : List Char) (h : l ≠ [] ∨ acc ≠ []) :
    splitBreaks l acc ≠ [] := by
  induction l generalizing acc with
  | nil =>
    rcases h with h | h
    · exact absurd rfl h
    · simp [splitBreaks, h]
  | cons c rest ih =>
    by_cases hb : isLineBreak c
    · simp [splitBreaks, hb]
    · simp only [splitBreaks, hb, if_false]
      exact ih (c :: acc) (Or.inr (by simp))

theorem splitlines_ne_nil (s : String) (h : s ≠ "") : splitlines s ≠ [] := by
  have hd : s.data ≠ [] := by
    intro he
    exact h (String.ext (by simp [he]))
  exact splitBreaks_ne_nil _ [] (Or.inl (normalizeNewlines_ne_nil s.data hd))

theorem SubstringOf.refl (s : String) : SubstringOf s s :=
  ⟨"", "", by rw [strEmpty_append, strAppend_empty]⟩

theorem SubstringOf.extend_left (n s a : String) (h : SubstringOf n s) :
    SubstringOf n (a ++ s) := by
  obtain ⟨p, q, hpq⟩ := h
  exact ⟨a ++ p, q, by rw [← hpq]; simp [strAppend_assoc]⟩

theorem SubstringOf.extend_right (n s b : String) (h : SubstringOf n s) :
    SubstringOf n (s ++ b) := by
  obtain ⟨p, q, hpq⟩ := h
  exact ⟨p, q ++ b, by rw [← hpq]; simp [strAppend_assoc]⟩

theorem SubstringOf.trans (a b c : String) (h1 : SubstringOf a b)
    (h2 : SubstringOf b c) : SubstringOf a c := by
  obtain ⟨p, q, hpq⟩ := h1
  obtain ⟨r, s, hrs⟩ := h2
  exact ⟨r ++ p, q ++ s, by rw [← hrs, ← hpq]; simp [strAppend_assoc]⟩

theorem substringOf_joinSep (sep : String) :
    ∀ (l : List String) (x : String), x ∈ l → SubstringOf x (joinSep sep l)
  | [y], x, hx => by
    simp only [List.mem_singleton] at hx
    subst hx
    exact SubstringOf.refl x
  | y :: z :: zs, x, hx => by
    rcases List.mem_cons.mp hx with hx | hx
    · subst hx
      show SubstringOf x (x ++ sep ++ joinSep sep (z :: zs))
      exact SubstringOf.extend_right x (x ++ sep) (joinSep sep (z :: zs))
        (SubstringOf.extend_right x x sep (SubstringOf.refl x))
    · have ih := substringOf_joinSep sep (z :: zs) x hx
      show SubstringOf x (y ++ sep ++ joinSep sep (z :: zs))
      rw [strAppend_assoc]
      exact SubstringOf.extend_left x (sep ++ joinSep sep (z :: zs)) y
        (SubstringOf.extend_left x (joinSep sep (z :: zs)) sep ih)

theorem substringOf_quoteKey (k : String) : SubstringOf k (quoteKey k) := by
  show SubstringOf k (apos ++ btick ++ k ++ btick ++ apos)
  exact SubstringOf.extend_right k _ apos
    (SubstringOf.extend_right k _ btick
      (SubstringOf.extend_left k k (apos ++ btick) (SubstringOf.refl k)))

theorem substringOf_pyListRepr (names : List String) (x : String)
    (hx : x ∈ names) : SubstringOf x (pyListRepr names) := by
  show SubstringOf x ("[" ++ joinSep ", " (names.map quoteKey) ++ "]")
  have h1 : SubstringOf x (joinSep ", " (names.map quoteKey)) :=
    SubstringOf.trans x (quoteKey x) _
      (substringOf_quoteKey x)
      (substringOf_joinSep ", " (names.map quoteKey) (quoteKey x)
        (List.mem_map_of_mem quoteKey hx))
  exact SubstringOf.extend_right x _ "]" (SubstringOf.extend_left x _ "[" h1)

theorem substringOf_taskErrorString (t : String) (names : List String)
    (x : String) (hx : x ∈ names) : SubstringOf x (taskErrorString t names) := by
  show SubstringOf x ("Error: invoked agent of type " ++ t
    ++ ", the only allowed types are " ++ pyListRepr names)
  exact SubstringOf.extend_left x (pyListRepr names) _
    (substringOf_pyListRepr names x hx)

theorem foldl_append_eq_concat (f : Nat × Todo → String)
    (l : List (Nat × Todo)) (init : String) :
    l.foldl (fun acc p => acc ++ f p) init = init ++ concatList (l.map f) := by
  induction l generalizing init with
  | nil => simp [concatList, strAppend_empty]
  | cons hd tl ih =>
    simp only [List.foldl_cons, List.map_cons, concatList]
    rw [ih (init ++ f hd), strAppend_assoc]

/-- C1: `file_reducer` satisfies `merge(None, X) = X` and
`merge(X, None) = X`; on two dicts it is `{**left, **right}`; for
disjoint key sets the result is the union (both sides keep their
values); for a key present in both, the right value wins; a key absent
from one side keeps the value of its unique owner. -/
theorem file_reducer_merge_laws (X : Option Dict) (l r : Dict)
    (hr : r.NodupKeys) :
    file_reducer none X = X ∧
    file_reducer X none = X ∧
    file_reducer (some l) (some r) = some (Dict.union l r) ∧
    ((∀ q, Dict.lookup l q = none ∨ Dict.lookup r q = none) →
      ∀ k, (∀ v, Dict.lookup l k = some v →
              Dict.lookup (Dict.union l r) k = some v) ∧
           (∀ v, Dict.lookup r k = some v →
              Dict.lookup (Dict.union l r) k = some v)) ∧
    (∀ k v w, Dict.lookup l k = some v → Dict.lookup r k = some w →
      Dict.lookup (Dict.union l r) k = some w) ∧
    (∀ k, Dict.lookup r k = none →
      Dict.lookup (Dict.union l r) k = Dict.lookup l k) ∧
    (∀ k, Dict.lookup l k = none →
      Dict.lookup (Dict.union l r) k = Dict.lookup r k) := by
  refine ⟨by cases X <;> rfl, by cases X <;> rfl, rfl, ?_, ?_, ?_, ?_⟩
  · intro hdisj k
    constructor
    · intro v hv
      rcases hdisj k with h | h
      · rw [hv] at h; exact absurd h (by simp)
      · rw [Dict.lookup_union l r hr k, h, hv]
    · intro v hv
      rw [Dict.lookup_union l r hr k, hv]
  · intro k v w _ hw
    rw [Dict.lookup_union l r hr k, hw]
  · intro k h
    rw [Dict.lookup_union l r hr k, h]
  · intro k h
    rw [Dict.lookup_union l r hr k]
    cases hrk : Dict.lookup r k <;> simp [h]

/-- Witness for C1 at concrete dictionaries. -/
theorem file_reducer_merge_laws_witness :
    file_reducer none (some [("a", "1")]) = some [("a", "1")] ∧
    file_reducer (some [("a", "1")]) none = some [("a", "1")] ∧
    Dict.lookup (Dict.union [("a", "1")] [("a", "2"), ("b", "3")]) "a"
      = some "2" ∧
    Dict.lookup (Dict.union [("a", "1")] [("a", "2"), ("b", "3")]) "b"
      = some "3" := by
  have h := file_reducer_merge_laws (some [("a", "1")]) [("a", "1")]
    [("a", "2"), ("b", "3")] (by decide)
  exact ⟨h.1, h.2.1,
    h.2.2.2.2.1 "a" "1" "2" (by decide) (by decide),
    (h.2.2.2.2.2.2 "b" (by decide)).trans (by decide)⟩

/-- C2: for a registered worker name, `task` invokes the worker on a
state holding exactly one synthetic user message whose content is the
task description (none of the parent conversation), the parent file
dict, and the parent todo list; nothing else about the parent state is
visible to it. -/
theorem task_isolated_context (agents : List (String × Worker))
    (name : String) (w : Worker) (description tool_call_id : String)
    (s : AgentState) (hw : lookupWorker agents name = some w) :
    task agents description name s tool_call_id =
      .command
        { files := some (w { messages := [Message.user description]
                             files := s.files
                             todos := s.todos }).files
          todos := none
          messages := [Message.tool
            (lastContent (w { messages := [Message.user description]
                              files := s.files
                              todos := s.todos }).messages) tool_call_id] } := by
  unfold task
  rw [hw]

/-- Witness for C2 at a concrete registry, worker and parent state. -/
theorem task_isolated_context_witness :
    task demoRegistry "find X" "research" demoParent "tc1" =
      .command
        { files := some (demoWorker { messages := [Message.user "find X"]
                                      files := demoParent.files
                                      todos := demoParent.todos }).files
          todos := none
          messages := [Message.tool
            (lastContent (demoWorker { messages := [Message.user "find X"]
                                       files := demoParent.files
                                       todos := demoParent.todos }).messages)
            "tc1"] } :=
  task_isolated_context demoRegistry "research" demoWorker "find X" "tc1"
    demoParent rfl

/-- C3: reconciling a registered worker invocation merges the worker
file dict into the parent state with right bias (worker writes win on
collision, parent-only files are preserved), leaves the parent todo
list untouched, appends to — never rewrites — the parent conversation,
and hands the parent exactly one tool message carrying the final
worker message content. -/
theorem task_reconciliation (agents : List (String × Worker))
    (name : String) (w : Worker) (d tcid : String) (s R : AgentState)
    (c : CommandUpdate)
    (hw : lookupWorker agents name = some w)
    (hR : R = w { messages := [Message.user d], files := s.files, todos := s.todos })
    (hc : c = { files := some R.files
                todos := none
                messages := [Message.tool (lastContent R.messages) tcid] })
    (hnd : R.files.NodupKeys) :
    task agents d name s tcid = .command c ∧
    (applyUpdate s c).todos = s.todos ∧
    (applyUpdate s c).messages =
      s.messages ++ [Message.tool (lastContent R.messages) tcid] ∧
    (∀ k v, Dict.lookup R.files k = some v →
      Dict.lookup (applyUpdate s c).files k = some v) ∧
    (∀ k, Dict.lookup R.files k = none →
      Dict.lookup (applyUpdate s c).files k = Dict.lookup s.files k) := by
  subst hR hc
  refine ⟨?_, rfl, rfl, ?_, ?_⟩
  · unfold task
    rw [hw]
  · intro k v hv
    show Dict.lookup ((file_reducer (some s.files) (some _)).getD s.files) k = some v
    simp only [file_reducer, Option.getD_some]
    rw [Dict.lookup_union s.files _ hnd k, hv]
  · intro k h
    show Dict.lookup ((file_reducer (some s.files) (some _)).getD s.files) k
      = Dict.lookup s.files k
    simp only [file_reducer, Option.getD_some]
    rw [Dict.lookup_union s.files _ hnd k, h]

/-- Witness for C3: the worker write to `w.md` wins over the parent
value, the parent-only `old.md` is preserved, the parent todos and
history survive. -/
theorem task_reconciliation_witness :
    task demoRegistry "find X" "research" demoParent "tc1" = .command demoCmd ∧
    (applyUpdate demoParent demoCmd).todos = demoParent.todos ∧
    (applyUpdate demoParent demoCmd).messages =
      demoParent.messages ++ [Message.tool (lastContent demoR.messages) "tc1"] ∧
    Dict.lookup (applyUpdate demoParent demoCmd).files "w.md" = some "data" ∧
    Dict.lookup (applyUpdate demoParent demoCmd).files "old.md" = some "o" := by
  have h := task_reconciliation demoRegistry "research" demoWorker "find X"
    "tc1" demoParent demoR demoCmd rfl rfl rfl (by decide)
  exact ⟨h.1, h.2.1, h.2.2.1,
    h.2.2.2.1 "w.md" "data" (by decide),
    (h.2.2.2.2 "old.md" (by decide)).trans (by decide)⟩

/-- C7: for a name missing from the registry, `task` returns (does not
raise) an error string, that string contains every registered name,
and no `Command` (hence no state update at all) is produced. -/
theorem task_unregistered_name (agents : List (String × Worker))
    (name : String) (d tcid : String) (s : AgentState)
    (hmiss : lookupWorker agents name = none) :
    task agents d name s tcid =
      .error (taskErrorString name (agents.map Prod.fst)) ∧
    (∀ n ∈ agents.map Prod.fst,
      SubstringOf n (taskErrorString name (agents.map Prod.fst))) ∧
    (∀ c, task agents d name s tcid ≠ .command c) := by
  have h1 : task agents d name s tcid =
      .error (taskErrorString name (agents.map Prod.fst)) := by
    unfold task
    rw [hmiss]
  refine ⟨h1, ?_, ?_⟩
  · intro n hn
    exact substringOf_taskErrorString name (agents.map Prod.fst) n hn
  · intro c hc
    rw [h1] at hc
    exact ToolResult.noConfusion hc

/-- Witness for C7 at a concrete registry and a missing name. -/
theorem task_unregistered_name_witness :
    task demoRegistry "find X" "writer" demoParent "tc1" =
      .error (taskErrorString "writer" ["research"]) ∧
    SubstringOf "research" (taskErrorString "writer" ["research"]) ∧
    task demoRegistry "find X" "writer" demoParent "tc1" ≠
      .command demoCmd := by
  have h := task_unregistered_name demoRegistry "writer" "find X" "tc1"
    demoParent rfl
  exact ⟨h.1, h.2.1 "research" (by simp [demoRegistry]), h.2.2 demoCmd⟩

/-- C4: under the batch-call contract (one output per input on
success), `summarize_webpage_contents` returns exactly one record per
input document on both the success path and the fallback path; an
empty input yields the empty list for every oracle, i.e. without the
model being consulted; and on a batch error the output is the
index-aligned local fallback. -/
theorem summarize_length_and_empty (batch : BatchModel) (now : String)
    (contents : List String)
    (hbatch : ∀ out, batch (mkBatchInputs now contents) = .ok out →
      out.length = contents.length) :
    (summarize_webpage_contents batch now contents).length = contents.length ∧
    (∀ (b : BatchModel) (t : String), summarize_webpage_contents b t [] = []) ∧
    (∀ e, batch (mkBatchInputs now contents) = .error e →
      summarize_webpage_contents batch now contents =
        contents.enum.map (fun p => fallbackSummary p.1 p.2)) := by
  refine ⟨?_, fun b t => rfl, ?_⟩
  · unfold summarize_webpage_contents
    by_cases hemp : contents.isEmpty
    · rw [List.isEmpty_iff] at hemp
      simp [hemp]
    · simp only [hemp, if_false]
      cases hcall : batch (mkBatchInputs now contents) with
      | ok out => exact hbatch out hcall
      | error e => simp [List.enum_length]
  · intro e he
    unfold summarize_webpage_contents
    by_cases hemp : contents.isEmpty
    · rw [List.isEmpty_iff] at hemp
      simp [hemp]
    · simp [hemp, he]

/-- Witness for C4 with a concrete contract-satisfying oracle and a
two-document input. -/
theorem summarize_length_and_empty_witness :
    (summarize_webpage_contents demoBatch "now" ["alpha", "beta"]).length = 2 ∧
    summarize_webpage_contents demoBatch "now" [] = [] := by
  have h := summarize_length_and_empty demoBatch "now" ["alpha", "beta"]
    (fun out hout => by
      have : (mkBatchInputs "now" ["alpha", "beta"]).map
          (fun _ => ({ filename := "f.md", summary := "s" } : Summary)) = out :=
        Except.ok.inj hout
      rw [← this]
      rfl)
  exact ⟨h.1, h.2.1 demoBatch "now"⟩

/-- C8: when the search response carries no results (missing or empty
list), `tavily_search` leaves the file dict exactly as it was — no
file writes — and returns a single tool message whose text is the
zero-hit summary; nothing is raised. The second conjunct pins down the
zero-hit text at a concrete query. -/
theorem tavily_search_empty_results (resp : SearchResponse)
    (batch : BatchModel) (now query tcid : String) (s : AgentState)
    (h : resp.results.getD [] = []) :
    tavily_search resp batch now query s tcid =
      { files := some s.files
        todos := none
        messages := [Message.tool (summaryText query 0 [] []) tcid] } ∧
    summaryText "climate" 0 [] [] =
      "🔍 Found 0 result(s) for " ++ apos ++ "climate" ++ apos
        ++ ":\n\n\n\nFiles: \n💡 Use read_file() to access full details when needed." := by
  constructor
  · have hproc : process_search_results batch now resp = [] := by
      unfold process_search_results
      rw [h]
      rfl
    unfold tavily_search
    rw [hproc]
    rfl
  · decide

/-- Witness for C8 at a concrete empty response. -/
theorem tavily_search_empty_results_witness :
    tavily_search { results := some [] } demoBatch "now" "climate" demoParent "tc2" =
      { files := some demoParent.files
        todos := none
        messages := [Message.tool (summaryText "climate" 0 [] []) "tc2"] } :=
  (tavily_search_empty_results { results := some [] } demoBatch "now" "climate"
    "tc2" demoParent (by decide)).1

/-- C10: `read_todos` is total over arbitrary status strings: for any
nonempty todo list — items with unknown status included — it returns
one tool message holding the stripped header-plus-lines listing, each
item rendered by `formatTodoLine`; any status outside the three enum
values renders as the fallback marker, which is distinct from the
three status markers. -/
theorem read_todos_total_unknown_status (s : AgentState) (tcid : String)
    (h : s.todos ≠ []) :
    (read_todos s tcid).messages =
      [Message.tool
        (pyStrip ("Current TODO List:\n" ++
          concatList (s.todos.enum.map
            (fun p => formatTodoLine (p.1 + 1) p.2)))) tcid] ∧
    (∀ t : Todo, t.status ≠ "pending" → t.status ≠ "in_progress" →
      t.status ≠ "completed" → statusEmojiLookup t.status = "❓") ∧
    statusEmojiLookup "pending" = "⏳" ∧
    statusEmojiLookup "in_progress" = "🔄" ∧
    statusEmojiLookup "completed" = "✅" ∧
    ("❓" ≠ "⏳" ∧ "❓" ≠ "🔄" ∧ "❓" ≠ "✅") := by
  refine ⟨?_, ?_, by decide, by decide, by decide, by decide⟩
  · have hemp : s.todos.isEmpty = false := by
      cases ht : s.todos with
      | nil => exact absurd ht h
      | cons a l => rfl
    unfold read_todos
    rw [hemp]
    simp only [Bool.false_eq_true, if_false]
    rw [foldl_append_eq_concat (fun p => formatTodoLine (p.1 + 1) p.2)
      s.todos.enum "Current TODO List:\n"]
  · intro t h1 h2 h3
    simp [statusEmojiLookup, h1, h2, h3]

/-- Witness for C10 at a todo list containing an unknown status. -/
theorem read_todos_total_unknown_status_witness :
    (read_todos weirdState "tc3").messages =
      [Message.tool
        (pyStrip ("Current TODO List:\n" ++
          concatList ((weirdState.todos.enum).map
            (fun p => formatTodoLine (p.1 + 1) p.2)))) "tc3"] ∧
    statusEmojiLookup "weird" = "❓" := by
  have h := read_todos_total_unknown_status weirdState "tc3" (by decide)
  exact ⟨h.1, h.2.1 weirdTodo (by decide) (by decide) (by decide)⟩

theorem lookup_after_write (s : AgentState) (p c tcid q : String)
    (hn : s.files.NodupKeys) :
    Dict.lookup (applyUpdate s (write_file s p c tcid)).files q =
      if p = q then some c else Dict.lookup s.files q := by
  show Dict.lookup ((file_reducer (some s.files)
    (some (Dict.insert s.files p c))).getD s.files) q = _
  simp only [file_reducer, Option.getD_some]
  rw [Dict.lookup_union s.files (Dict.insert s.files p c)
    (Dict.NodupKeys_insert s.files p c hn) q]
  rw [Dict.lookup_insert s.files p c q]
  by_cases h : p = q
  · simp [h]
  · simp only [h, if_false]
    cases Dict.lookup s.files q <;> rfl

theorem renderNumbered_truncated (lines : List String) :
    joinSep "\n" (lines.enum.map (fun p => fmt6 (p.1 + 1) ++ "\t" ++ takeChars p.2 2000))
      = renderNumbered (lines.map (fun l => takeChars l 2000)) := by
  unfold renderNumbered
  rw [List.enum_map, List.map_map]
  apply congrArg
  apply List.map_congr_left
  intro p _
  obtain ⟨i, l⟩ := p
  simp [Prod.map]

/-- C5 (amended): for every path and every nonempty content, writing
the file and reading it back at offset 0 with a limit at least the
line count returns exactly the numbered rendering of the lines of the
written content, each truncated to 2000 characters — per-line
truncation is the only lossy step. The empty content instead hits the
empty-file reminder (see the counterexample). -/
theorem write_read_roundtrip (s : AgentState) (path content tcid : String)
    (limit : Nat) (hn : s.files.NodupKeys) (hne : content ≠ "")
    (hlimit : (splitlines content).length ≤ limit) :
    read_file (applyUpdate s (write_file s path content tcid)) path 0 limit
      = renderNumbered (truncatedLines content) := by
  have hlook : Dict.lookup (applyUpdate s (write_file s path content tcid)).files path
      = some content := by
    rw [lookup_after_write s path content tcid path hn]
    simp
  have hpos : 0 < (splitlines content).length :=
    List.length_pos.mpr (splitlines_ne_nil content hne)
  unfold read_file
  rw [hlook]
  dsimp only
  rw [if_neg hne]
  rw [if_neg (Nat.not_le.mpr hpos)]
  have h1 : min (0 + limit) (splitlines content).length
      = (splitlines content).length := by
    rw [Nat.zero_add]
    exact Nat.min_eq_right hlimit
  rw [h1, Nat.sub_zero, List.drop_zero]
  have h2 : (splitlines content).enum.take (splitlines content).length
      = (splitlines content).enum :=
    List.take_of_length_le (le_of_eq List.enum_length)
  rw [h2]
  unfold truncatedLines
  exact renderNumbered_truncated (splitlines content)

/-- Counterexample to C5 as stated: for the empty content string the
read-back is the empty-file reminder, not the (empty) numbered
rendering of the (zero) lines of the written content. -/
theorem write_read_roundtrip_counterexample :
    read_file (applyUpdate emptyState (write_file emptyState "a.md" "" "t1"))
        "a.md" 0 2000
      = "System reminder: File exists but has empty contents" ∧
    read_file (applyUpdate emptyState (write_file emptyState "a.md" "" "t1"))
        "a.md" 0 2000
      ≠ renderNumbered (truncatedLines "") := by
  decide

/-- Witness for the amended C5 at a concrete two-line file. -/
theorem write_read_roundtrip_witness :
    read_file (applyUpdate emptyState
        (write_file emptyState "b.md" "line1\nline2" "t2")) "b.md" 0 2000
      = renderNumbered (truncatedLines "line1\nline2") :=
  write_read_roundtrip emptyState "b.md" "line1\nline2" "t2" 2000
    (by decide) (by decide) (by decide)

/-- C6 (amended): for every stored file with at least one line
(nonempty content) and every offset at or beyond the line count,
`read_file` returns the OutOfRange message string — never an
exception. For a stored empty file (zero lines) the code instead
returns the empty-file reminder (see the counterexample). -/
theorem read_file_offset_out_of_range (s : AgentState)
    (path content : String) (offset limit : Nat)
    (hc : Dict.lookup s.files path = some content) (hne : content ≠ "")
    (hoff : (splitlines content).length ≤ offset) :
    read_file s path offset limit =
      "Error: Line offset " ++ toString offset ++ " exceeds file length ("
        ++ toString (splitlines content).length ++ " lines)" := by
  unfold read_file
  rw [hc]
  dsimp only
  rw [if_neg hne]
  rw [if_pos hoff]

/-- Counterexample to C6 as stated: a stored empty file has zero
lines, so every offset is out of range, yet `read_file` returns the
empty-file reminder instead of the OutOfRange message. -/
theorem read_file_offset_counterexample :
    read_file emptyFileState "e.md" 0 2000
      = "System reminder: File exists but has empty contents" ∧
    read_file emptyFileState "e.md" 0 2000
      ≠ "Error: Line offset 0 exceeds file length (0 lines)" := by
  decide

/-- Witness for the amended C6 at a one-line file and offset 5. -/
theorem read_file_offset_out_of_range_witness :
    read_file oneLineState "a.md" 5 2000
      = "Error: Line offset 5 exceeds file length (1 lines)" :=
  (read_file_offset_out_of_range oneLineState "a.md" "x" 5 2000
    (by decide) (by decide) (by decide)).trans (by decide)

/-- C9: the scenario of writing three lines and reading with offset 1
and limit 1 yields exactly the 6-character right-aligned 1-based line
number, a tab and the line; in general an in-range read is the
newline-join of the selected numbered lines, each truncated to 2000
characters. -/
theorem read_file_numbered_format (s : AgentState)
    (path content : String) (offset limit : Nat)
    (hc : Dict.lookup s.files path = some content) (hne : content ≠ "")
    (hoff : offset < (splitlines content).length) :
    read_file s path offset limit =
      joinSep "\n"
        ((((splitlines content).enum.drop offset).take
            (min (offset + limit) (splitlines content).length - offset)).map
          (fun p => fmt6 (p.1 + 1) ++ "\t" ++ takeChars p.2 2000)) ∧
    read_file (applyUpdate emptyState
        (write_file emptyState "a.md" "line1\nline2\nline3" "t3")) "a.md" 1 1
      = "     2\tline2" := by
  constructor
  · unfold read_file
    rw [hc]
    dsimp only
    rw [if_neg hne]
    rw [if_neg (Nat.not_le.mpr hoff)]
  · decide

/-- Witness for C9 at the scenario state of the claim. -/
theorem read_file_numbered_format_witness :
    read_file (applyUpdate emptyState
        (write_file emptyState "a.md" "line1\nline2\nline3" "t3")) "a.md" 1 1
      = "     2\tline2" :=
  (read_file_numbered_format
    (applyUpdate emptyState (write_file emptyState "a.md" "line1\nline2\nline3" "t3"))
    "a.md" "line1\nline2\nline3" 1 1 (by decide) (by decide) (by decide)).2
